import Mathlib

/-!
Shallow embedding of the translation request handler of
`src/app/api/translate+api.ts` (the `POST` route of the rn-expo-ai-translate
repository), together with theorems checking the specification's claims
about it.

Strings are Lean `String`s; the JavaScript string primitives the handler
uses (`trim`, `includes`/`split` on a separator, truthiness of possibly
absent fields) are embedded as executable Lean functions on `String` /
`List Char`.  The outbound Gemini call is embedded as an oracle parameter
`GenRequest → ModelResult`; the handler returns, besides the HTTP
response, the list of outbound calls it made, so that "no model call is
made" and the exact call shape are provable statements.
-/

namespace TranslateApi

/-! ### JavaScript string primitives -/

/-- List-level embedding of JavaScript `String.prototype.trim`: drop Unicode
whitespace from both ends.  `List.rdropWhile p l = (l.reverse.dropWhile p).reverse`. -/
def trimList (l : List Char) : List Char :=
  List.rdropWhile Char.isWhitespace (l.dropWhile Char.isWhitespace)

/-- Embedding of JavaScript `s.trim()`. -/
def jsTrim (s : String) : String :=
  String.mk (trimList s.data)

/-- Scan for the first occurrence of `sep` in a list and return what follows
it, or `none` when `sep` does not occur.  This is the scanning that underlies
JavaScript `includes` and `split`: `afterFirst sep l = some r` exactly when
`l` contains `sep`, with `r` the remainder after the first match. -/
def afterFirst (sep : List Char) : List Char → Option (List Char)
  | [] => none
  | c :: rest =>
    if sep.isPrefixOf (c :: rest) then some (List.drop sep.length (c :: rest))
    else afterFirst sep rest

/-- The part of a list strictly before the first occurrence of `sep`
(the whole list when `sep` does not occur): element `0` of a JavaScript
`split`. -/
def beforeFirst (sep : List Char) : List Char → List Char
  | [] => []
  | c :: rest =>
    if sep.isPrefixOf (c :: rest) then []
    else c :: beforeFirst sep rest

/-- The separator the handler splits image payloads on. -/
def sepB64 : List Char := "base64,".data

/-- Embedding of line 22-24 of `translate+api.ts`:
`image.includes("base64,") ? image.split("base64,")[1] : image`.
JavaScript `split` scans left to right for non-overlapping occurrences of the
separator, so element `1` is the segment after the first occurrence and
before the next one (or the end of the string). -/
def cleanBase64 (s : String) : String :=
  match afterFirst sepB64 s.data with
  | some rest => String.mk (beforeFirst sepB64 rest)
  | none => s

/-- Definition following the words of the specification claim, for the
comparison with `cleanBase64`: "everything up to and including that separator
is stripped and only the raw base64 payload that follows is kept; if the
string does not contain the separator it is passed through unchanged". -/
def cleanBase64Claimed (s : String) : String :=
  match afterFirst sepB64 s.data with
  | some rest => String.mk rest
  | none => s

/-! ### Prompt construction

The two template literals of the handler, split at the interpolation
points.  The leading newline and the trailing newline-plus-indentation come
from the template literals themselves; the handler applies `.trim()` to the
whole interpolated string. -/

/-- Text-mode template up to the first interpolation point. -/
def textPromptHead : String :=
  "\nYou are a professional translation engine.\n\nTask:\n- Translate the given text into the target language.\n- Keep original meaning.\n- Do NOT add explanations.\n- Output ONLY the translated text.\n\nTarget language:\n"

/-- Text-mode template between the two interpolation points. -/
def textPromptMid : String := "\n\nText:\n"

/-- Text-mode template after the second interpolation point (newline and the
four spaces of indentation before the closing backtick). -/
def textPromptTail : String := "\n    "

/-- Embedding of the text-mode prompt of lines 77-92: the template literal
with `targetLang` and `text` interpolated, then trimmed. -/
def textPrompt (targetLang text : String) : String :=
  jsTrim (textPromptHead ++ targetLang ++ textPromptMid ++ text ++ textPromptTail)

/-- Image-mode template up to the interpolation point. -/
def imagePromptHead : String :=
  "\nYou are a professional translation engine.\n\nTask:\n1. Read all text in the image.\n2. Translate it into the target language.\n3. Keep original meaning.\n4. Do NOT add explanations.\n5. Output ONLY the translated text.\n\nTarget language:\n"

/-- Image-mode template after the interpolation point (newline and the six
spaces of indentation before the closing backtick). -/
def imagePromptTail : String := "\n      "

/-- Embedding of the image-mode prompt of lines 26-38. -/
def imagePrompt (targetLang : String) : String :=
  jsTrim (imagePromptHead ++ targetLang ++ imagePromptTail)

/-! ### Request, response and model-call data -/

/-- The deserialized request body `{ text, targetLang, image }`; `none`
stands for an absent (or `null`/`undefined`) field. -/
structure TranslationRequest where
  text : Option String
  targetLang : Option String
  image : Option String

/-- JavaScript falsiness of a possibly absent string field: absent fields
and the empty string are falsy, every other string is truthy. -/
def falsy : Option String → Bool
  | none => true
  | some s => s.isEmpty

/-- JavaScript truthiness of a possibly absent string field. -/
def truthy (o : Option String) : Bool := !falsy o

/-- One part of a Gemini content message: either plain text or inline
base64 data with a declared MIME type. -/
inductive Part where
  | textPart (text : String)
  | inlineData (mimeType : String) (data : String)
deriving DecidableEq

/-- One message of a Gemini `contents` array. -/
structure Message where
  role : String
  parts : List Part
deriving DecidableEq

/-- The `contents` argument of `ai.models.generateContent`: the text branch
passes a bare string, the image branch passes an array of messages. -/
inductive GenContents where
  | str (s : String)
  | msgs (l : List Message)
deriving DecidableEq

/-- One outbound `ai.models.generateContent` call. -/
structure GenRequest where
  model : String
  contents : GenContents
deriving DecidableEq

/-- Result of the outbound model call: an exception, or a response envelope
whose `text` field is optional (`response.text` has type
`string | undefined`). -/
abbrev ModelResult := Except Unit (Option String)

/-- Body of an HTTP response produced by `Response.json`. -/
inductive RespBody where
  | errorBody (error : String)
  | textBody (text : String)
deriving DecidableEq

/-- An HTTP response: status code plus JSON body. -/
structure HttpResponse where
  status : Nat
  body : RespBody
deriving DecidableEq

/-- The multimodal call the image branch of the handler issues
(lines 40-56): one user-role message whose parts are the rendered prompt and
the normalized base64 payload declared as `image/jpeg`. -/
def imageCallOf (targetLang image : String) : GenRequest :=
  { model := "gemini-2.5-flash",
    contents := GenContents.msgs
      [{ role := "user",
         parts := [Part.textPart (imagePrompt targetLang),
                   Part.inlineData "image/jpeg" (cleanBase64 image)] }] }

/-- The text-only call the text branch issues (lines 94-97): `contents` is
the bare rendered prompt. -/
def textCallOf (targetLang text : String) : GenRequest :=
  { model := "gemini-2.5-flash",
    contents := GenContents.str (textPrompt targetLang text) }

/-- Embedding of the shared result handling of lines 58-66 and 99-105:
`const translatedText = response.text?.trim()`; a falsy `translatedText`
raises `Error("Empty ... result")`, which the top-level catch turns into
`500 Translation failed`; otherwise `Response.json({ text: translatedText })`.
A thrown model call lands in the same catch. -/
def modelResponse (r : ModelResult) : HttpResponse :=
  match r with
  | Except.error _ => { status := 500, body := RespBody.errorBody "Translation failed" }
  | Except.ok t =>
    let translatedText := t.map jsTrim
    if falsy translatedText then
      { status := 500, body := RespBody.errorBody "Translation failed" }
    else
      { status := 200, body := RespBody.textBody (translatedText.getD "") }

/-- Embedding of the handler `POST` of `translate+api.ts`.  The first
argument is the result of `await req.json()` (`none` when the body is
malformed and parsing throws, which the top-level catch turns into a 500);
`oracle` gives the model's behaviour on each outbound call.  Besides the
HTTP response, the list of outbound `generateContent` calls made during the
invocation is returned. -/
def POST (body : Option TranslationRequest) (oracle : GenRequest → ModelResult) :
    HttpResponse × List GenRequest :=
  match body with
  | none => ({ status := 500, body := RespBody.errorBody "Translation failed" }, [])
  | some req =>
    if falsy req.targetLang then
      ({ status := 400, body := RespBody.errorBody "Missing targetLang" }, [])
    else if truthy req.image then
      let call := imageCallOf (req.targetLang.getD "") (req.image.getD "")
      (modelResponse (oracle call), [call])
    else if falsy req.text then
      ({ status := 400, body := RespBody.errorBody "Missing text" }, [])
    else
      let call := textCallOf (req.targetLang.getD "") (req.text.getD "")
      (modelResponse (oracle call), [call])

/-- The single outbound call a validation-passing request gives rise to. -/
def issuedCall (req : TranslationRequest) : GenRequest :=
  if truthy req.image then imageCallOf (req.targetLang.getD "") (req.image.getD "")
  else textCallOf (req.targetLang.getD "") (req.text.getD "")

/-- A model result the handler treats as a failure: a thrown call, or an
envelope whose `text` is absent or trims to the empty string. -/
def modelFailed (r : ModelResult) : Bool :=
  match r with
  | Except.error _ => true
  | Except.ok t => falsy (t.map jsTrim)

/-! ### Concrete oracles used by the witnesses -/

/-- Oracle whose model call always succeeds with a fixed non-blank text. -/
def oracleOk : GenRequest → ModelResult := fun _ => Except.ok (some " Bonjour ")

/-- Oracle whose model call always throws. -/
def oracleErr : GenRequest → ModelResult := fun _ => Except.error ()

/-- Oracle whose model call succeeds with whitespace-only text. -/
def oracleBlank : GenRequest → ModelResult := fun _ => Except.ok (some "  ")

/-! ### Helper lemmas about the JavaScript string primitives -/

theorem dropWhile_length_le (p : α → Bool) (l : List α) :
    (l.dropWhile p).length ≤ l.length := by
  induction l with
  | nil => simp
  | cons a t ih =>
    rw [List.dropWhile_cons]
    split
    · exact Nat.le_succ_of_le ih
    · exact Nat.le_refl _

theorem dropWhile_eq_self_mono {p : α → Bool} {y d : List α}
    (hy : y <+: d) (hd : List.dropWhile p d = d) : List.dropWhile p y = y := by
  cases y with
  | nil => rfl
  | cons c ys =>
    have hc : p c = false := by
      obtain ⟨t, ht⟩ := hy
      rw [← ht, List.cons_append, List.dropWhile_cons] at hd
      by_contra hc
      rw [Bool.not_eq_false] at hc
      rw [if_pos hc] at hd
      have hlen := congrArg List.length hd
      have hle := dropWhile_length_le p (ys ++ t)
      simp only [List.length_cons] at hlen
      omega
    rw [List.dropWhile_cons, if_neg (by simp [hc])]

theorem dropWhile_trimList (l : List Char) :
    List.dropWhile Char.isWhitespace (trimList l) = trimList l := by
  unfold trimList
  exact dropWhile_eq_self_mono ( List.rdropWhile_prefix _ _)
    (List.dropWhile_idempotent _ _)

theorem rdropWhile_trimList (l : List Char) :
    List.rdropWhile Char.isWhitespace (trimList l) = trimList l := by
  unfold trimList
  exact List.rdropWhile_idempotent _ _

theorem trimList_idem (l : List Char) : trimList (trimList l) = trimList l := by
  conv_lhs => rw [trimList, dropWhile_trimList]
  exact rdropWhile_trimList l

theorem jsTrim_idem (s : String) : jsTrim (jsTrim s) = jsTrim s := by
  unfold jsTrim
  exact congrArg String.mk (trimList_idem s.data)

theorem beforeFirst_prefix_self (sep : List Char) (l : List Char) :
    beforeFirst sep l <+: l := by
  induction l with
  | nil => exact List.prefix_refl _
  | cons c t ih =>
    rw [beforeFirst]
    split
    · exact List.nil_prefix
    · exact List.cons_prefix_cons.mpr ⟨rfl, ih⟩

theorem afterFirst_beforeFirst_none (sep : List Char) (l : List Char) :
    afterFirst sep (beforeFirst sep l) = none := by
  induction l with
  | nil => rfl
  | cons c t ih =>
    rw [beforeFirst]
    split
    · rfl
    · rename_i hns
      rw [afterFirst]
      rw [if_neg]
      · exact ih
      · intro hpre
        exact hns (by
          rw [ List.isPrefixOf_iff_prefix] at hpre ⊢
          exact hpre.trans (List.cons_prefix_cons.mpr ⟨rfl, beforeFirst_prefix_self sep t⟩))

theorem beforeFirst_of_none {sep l : List Char} (h : afterFirst sep l = none) :
    beforeFirst sep l = l := by
  induction l with
  | nil => rfl
  | cons c t ih =>
    rw [afterFirst] at h
    rw [beforeFirst]
    split
    · rename_i hp
      rw [if_pos hp] at h
      exact absurd h (by simp)
    · rename_i hp
      rw [if_neg hp] at h
      rw [ih h]

theorem afterFirst_some_decomp {sep l r : List Char} (h : afterFirst sep l = some r) :
    ∃ pre, l = pre ++ sep ++ r ∧ afterFirst sep pre = none := by
  induction l with
  | nil => exact absurd h (by rw [afterFirst]; simp)
  | cons c t ih =>
    rw [afterFirst] at h
    by_cases hp : sep.isPrefixOf (c :: t)
    · rw [if_pos hp] at h
      obtain ⟨t2, ht2⟩ := List.isPrefixOf_iff_prefix.mp hp
      refine ⟨[], ?_, rfl⟩
      have hr : r = t2 := by
        have := h
        rw [← ht2, Option.some_inj] at this
        rw [← this, List.drop_left]
      rw [hr, List.nil_append, ht2]
    · rw [if_neg hp] at h
      obtain ⟨pre, hpre, hnone⟩ := ih h
      refine ⟨c :: pre, by rw [List.cons_append, List.cons_append, ← hpre], ?_⟩
      rw [afterFirst, if_neg, hnone]
      intro hp2
      exact hp (by
        rw [ List.isPrefixOf_iff_prefix] at hp2 ⊢
        refine hp2.trans (List.cons_prefix_cons.mpr ⟨rfl, ⟨sep ++ r, by rw [hpre]; simp⟩⟩))

theorem beforeFirst_append_afterFirst {sep l r : List Char}
    (h : afterFirst sep l = some r) : l = beforeFirst sep l ++ sep ++ r := by
  induction l with
  | nil => exact absurd h (by rw [afterFirst]; simp)
  | cons c t ih =>
    rw [afterFirst] at h
    by_cases hp : sep.isPrefixOf (c :: t)
    · rw [if_pos hp] at h
      obtain ⟨t2, ht2⟩ := List.isPrefixOf_iff_prefix.mp hp
      rw [beforeFirst, if_pos hp, List.nil_append]
      have hr : r = t2 := by
        have := h
        rw [← ht2, Option.some_inj] at this
        rw [← this, List.drop_left]
      rw [hr, ht2]
    · rw [if_neg hp] at h
      rw [beforeFirst, if_neg hp, List.cons_append, List.cons_append, ← ih h]

theorem data_mk (l : List Char) : (String.mk l).data = l := rfl

/-- The text-mode template head as it survives the trim: the leading newline
of the template literal is removed, the rest starts with a non-whitespace
character. -/
def textPromptHeadT : String :=
  "You are a professional translation engine.\n\nTask:\n- Translate the given text into the target language.\n- Keep original meaning.\n- Do NOT add explanations.\n- Output ONLY the translated text.\n\nTarget language:\n"

/-- The image-mode template head as it survives the trim. -/
def imagePromptHeadT : String :=
  "You are a professional translation engine.\n\nTask:\n1. Read all text in the image.\n2. Translate it into the target language.\n3. Keep original meaning.\n4. Do NOT add explanations.\n5. Output ONLY the translated text.\n\nTarget language:\n"

/-- Exact shape of the rendered text-mode prompt: the trimmed template head,
then `targetLang` verbatim, then (when the source text is not
whitespace-only) the middle template verbatim followed by the right-trimmed
source text; when the source text is whitespace-only the prompt ends with
the right-trimmed middle template. -/
theorem textPrompt_data (tl txt : String) :
    (textPrompt tl txt).data =
      textPromptHeadT.data ++ tl.data ++
        (if (txt.data.reverse.dropWhile Char.isWhitespace).isEmpty
         then (textPromptMid.data.reverse.dropWhile Char.isWhitespace).reverse
         else textPromptMid.data ++ (txt.data.reverse.dropWhile Char.isWhitespace).reverse) := by
  have hA : List.dropWhile Char.isWhitespace textPromptHead.data = textPromptHeadT.data := rfl
  have hAne : (List.dropWhile Char.isWhitespace textPromptHead.data).isEmpty = false := rfl
  have hT : (List.dropWhile Char.isWhitespace textPromptTail.data.reverse).isEmpty = true := rfl
  have hTval : List.dropWhile Char.isWhitespace textPromptTail.data.reverse = [] := rfl
  have hMne : (List.dropWhile Char.isWhitespace textPromptMid.data.reverse).isEmpty = false := rfl
  unfold textPrompt jsTrim trimList
  rw [data_mk]
  simp only [String.data_append, List.append_assoc]
  rw [List.dropWhile_append, hAne, hA]
  simp only [Bool.false_eq_true, if_false]
  rw [List.rdropWhile]
  simp only [List.reverse_append, List.append_assoc]
  rw [List.dropWhile_append, hT, hTval]
  simp only [if_true, List.nil_append]
  rw [List.dropWhile_append]
  cases hcase : (List.dropWhile Char.isWhitespace txt.data.reverse).isEmpty with
  | true =>
    simp only [if_true]
    rw [List.dropWhile_append, hMne]
    simp only [Bool.false_eq_true, if_false]
    simp [List.reverse_append, List.append_assoc]
  | false =>
    simp only [Bool.false_eq_true, if_false]
    simp [List.reverse_append, List.append_assoc]

/-- Exact shape of the rendered image-mode prompt: the trimmed template head
followed by the right-trimmed `targetLang`; a whitespace-only `targetLang`
disappears entirely and the trailing newline of the head is trimmed too. -/
theorem imagePrompt_data (tl : String) :
    (imagePrompt tl).data =
      if (tl.data.reverse.dropWhile Char.isWhitespace).isEmpty
      then (imagePromptHeadT.data.reverse.dropWhile Char.isWhitespace).reverse
      else imagePromptHeadT.data ++ (tl.data.reverse.dropWhile Char.isWhitespace).reverse := by
  have hA : List.dropWhile Char.isWhitespace imagePromptHead.data = imagePromptHeadT.data := rfl
  have hAne : (List.dropWhile Char.isWhitespace imagePromptHead.data).isEmpty = false := rfl
  have hT : (List.dropWhile Char.isWhitespace imagePromptTail.data.reverse).isEmpty = true := rfl
  have hTval : List.dropWhile Char.isWhitespace imagePromptTail.data.reverse = [] := rfl
  unfold imagePrompt jsTrim trimList
  rw [data_mk]
  simp only [String.data_append, List.append_assoc]
  rw [List.dropWhile_append, hAne, hA]
  simp only [Bool.false_eq_true, if_false]
  rw [List.rdropWhile]
  simp only [List.reverse_append, List.append_assoc]
  rw [List.dropWhile_append, hT, hTval]
  simp only [if_true, List.nil_append]
  rw [List.dropWhile_append]
  cases hcase : (List.dropWhile Char.isWhitespace tl.data.reverse).isEmpty with
  | true =>
    simp only [if_true]
  | false =>
    simp only [Bool.false_eq_true, if_false]
    simp [List.reverse_append, List.append_assoc]

/-- Characterization of `POST` on requests that pass validation: exactly one
outbound call, namely `issuedCall`, whose result is post-processed by
`modelResponse`. -/
theorem POST_pass {req : TranslationRequest} (oracle : GenRequest → ModelResult)
    (h1 : falsy req.targetLang = false)
    (h2 : truthy req.image = true ∨ falsy req.text = false) :
    POST (some req) oracle = (modelResponse (oracle (issuedCall req)), [issuedCall req]) := by
  rcases h2 with h2 | h2
  · simp [POST, issuedCall, h1, h2]
  · by_cases h3 : truthy req.image = true <;> simp [POST, issuedCall, h1, h2, h3]

theorem string_eq_of_data {a b : String} (h : a.data = b.data) : a = b := by
  cases a
  cases b
  exact congrArg String.mk h

/-- Every `modelResponse` is either a 200 or the generic 500. -/
theorem modelResponse_status (r : ModelResult) :
    (modelResponse r).status = 200 ∨ (modelResponse r).status = 500 := by
  cases r with
  | error e => right; rfl
  | ok t =>
    unfold modelResponse
    by_cases h : falsy (t.map jsTrim) = true <;> simp [h]

/-- A 200 `modelResponse` carries text that is trim-fixed and non-empty. -/
theorem modelResponse_200 {r : ModelResult} {t : String}
    (h : modelResponse r = { status := 200, body := RespBody.textBody t }) :
    jsTrim t = t ∧ t ≠ "" := by
  cases r with
  | error e => exact absurd h (by simp [modelResponse])
  | ok o =>
    cases o with
    | none => exact absurd h (by simp [modelResponse, falsy])
    | some s =>
      by_cases hf : falsy (some (jsTrim s)) = true
      · exact absurd h (by simp [modelResponse, hf])
      · have hf' : falsy (some (jsTrim s)) = false := by
          cases hfb : falsy (some (jsTrim s))
          · rfl
          · exact absurd hfb hf
        have ht : t = jsTrim s := by
          have hred : modelResponse (Except.ok (some s)) =
              if falsy (some (jsTrim s)) = true then
                { status := 500, body := RespBody.errorBody "Translation failed" }
              else { status := 200, body := RespBody.textBody (jsTrim s) } := rfl
          rw [hred, hf'] at h
          simp at h
          exact h.symm
        constructor
        · rw [ht]; exact jsTrim_idem s
        · rw [ht]
          intro hemp
          have : (jsTrim s).isEmpty = true := by rw [hemp]; rfl
          rw [show falsy (some (jsTrim s)) = (jsTrim s).isEmpty from rfl, this] at hf'
          exact absurd hf' (by simp)

/-! ### The claims -/

/-- C1: the handler validates in order: a missing or empty `targetLang` gets
a 400 with body `Missing targetLang`; otherwise, with no (truthy) image and
a missing or empty `text`, a 400 with body `Missing text`; in both cases the
list of outbound model calls is empty. -/
theorem C1_validation_order (req : TranslationRequest) (oracle : GenRequest → ModelResult) :
    (falsy req.targetLang = true →
      POST (some req) oracle =
        ({ status := 400, body := RespBody.errorBody "Missing targetLang" }, [])) ∧
    (falsy req.targetLang = false → truthy req.image = false → falsy req.text = true →
      POST (some req) oracle =
        ({ status := 400, body := RespBody.errorBody "Missing text" }, [])) := by
  constructor
  · intro h
    simp [POST, h]
  · intro h1 h2 h3
    simp [POST, h1, h2, h3]

/-- Witness for C1 at two concrete requests. -/
theorem C1_validation_order_witness :
    POST (some ⟨some "hi", none, none⟩) oracleOk =
      ({ status := 400, body := RespBody.errorBody "Missing targetLang" }, []) ∧
    POST (some ⟨none, some "fr", none⟩) oracleOk =
      ({ status := 400, body := RespBody.errorBody "Missing text" }, []) :=
  ⟨(C1_validation_order ⟨some "hi", none, none⟩ oracleOk).1 rfl,
   (C1_validation_order ⟨none, some "fr", none⟩ oracleOk).2 rfl rfl rfl⟩

/-- C2: a malformed body (parse throws), a thrown model call, or a model
output whose text is absent or trims to empty all yield the fixed
`500 Translation failed` response, and every response the handler can
produce has status 200, 400 or 500 — no fault escapes. -/
theorem C2_failure_convergence (body : Option TranslationRequest)
    (req : TranslationRequest) (oracle : GenRequest → ModelResult) :
    (POST none oracle).1 = { status := 500, body := RespBody.errorBody "Translation failed" } ∧
    (falsy req.targetLang = false → (truthy req.image = true ∨ falsy req.text = false) →
      modelFailed (oracle (issuedCall req)) = true →
      POST (some req) oracle =
        ({ status := 500, body := RespBody.errorBody "Translation failed" }, [issuedCall req])) ∧
    ((POST body oracle).1.status = 200 ∨ (POST body oracle).1.status = 400 ∨
      (POST body oracle).1.status = 500) := by
  refine ⟨rfl, ?_, ?_⟩
  · intro h1 h2 hf
    rw [POST_pass oracle h1 h2]
    cases hr : oracle (issuedCall req) with
    | error e => rfl
    | ok t =>
      rw [hr] at hf
      simp [modelFailed] at hf
      simp [modelResponse, hf]
  · cases body with
    | none => right; right; rfl
    | some req2 =>
      by_cases h1 : falsy req2.targetLang = true
      · right; left; simp [POST, h1]
      · have h1' : falsy req2.targetLang = false := by
          cases hb : falsy req2.targetLang
          · rfl
          · exact absurd hb h1
        by_cases h2 : truthy req2.image = true
        · rw [POST_pass oracle h1' (Or.inl h2)]
          rcases modelResponse_status (oracle (issuedCall req2)) with h | h
          · left; exact h
          · right; right; exact h
        · by_cases h3 : falsy req2.text = true
          · right; left
            have h2' : truthy req2.image = false := by
              cases hb : truthy req2.image
              · rfl
              · exact absurd hb h2
            simp [POST, h1', h2', h3]
          · have h3' : falsy req2.text = false := by
              cases hb : falsy req2.text
              · rfl
              · exact absurd hb h3
            rw [POST_pass oracle h1' (Or.inr h3')]
            rcases modelResponse_status (oracle (issuedCall req2)) with h | h
            · left; exact h
            · right; right; exact h

/-- Witness for C2: a throwing model call on a validated request yields the
fixed 500. -/
theorem C2_failure_convergence_witness :
    POST (some ⟨some "hi", some "fr", none⟩) oracleErr =
      ({ status := 500, body := RespBody.errorBody "Translation failed" },
       [issuedCall ⟨some "hi", some "fr", none⟩]) :=
  (C2_failure_convergence none ⟨some "hi", some "fr", none⟩ oracleErr).2.1 rfl (Or.inr rfl) rfl

/-- C3: on a validated request whose model call returns text `s` with
non-empty trim, the response is exactly `200` with body the trimmed text;
and any 200 response the handler produces carries trim-fixed, non-empty
text (never empty or whitespace-only). -/
theorem C3_success_trimmed (body : Option TranslationRequest)
    (req : TranslationRequest) (oracle : GenRequest → ModelResult) (s : String) :
    (falsy req.targetLang = false → (truthy req.image = true ∨ falsy req.text = false) →
      oracle (issuedCall req) = Except.ok (some s) → jsTrim s ≠ "" →
      POST (some req) oracle =
        ({ status := 200, body := RespBody.textBody (jsTrim s) }, [issuedCall req])) ∧
    (∀ r, (POST body oracle).1 = { status := 200, body := RespBody.textBody r } →
      jsTrim r = r ∧ r ≠ "") := by
  constructor
  · intro h1 h2 hcall hne
    rw [POST_pass oracle h1 h2, hcall]
    have hfalse : (jsTrim s).isEmpty = false := by
      cases hemp : (jsTrim s).isEmpty
      · rfl
      · exact absurd ((String.isEmpty_iff (jsTrim s)).mp hemp) hne
    simp [modelResponse, falsy, hfalse]
  · intro r h
    cases body with
    | none => exact absurd h (by simp [POST])
    | some req2 =>
      by_cases h1 : falsy req2.targetLang = true
      · exact absurd h (by simp [POST, h1])
      · have h1' : falsy req2.targetLang = false := by
          cases hb : falsy req2.targetLang
          · rfl
          · exact absurd hb h1
        by_cases h2 : truthy req2.image = true
        · rw [POST_pass oracle h1' (Or.inl h2)] at h
          exact modelResponse_200 h
        · by_cases h3 : falsy req2.text = true
          · have h2' : truthy req2.image = false := by
              cases hb : truthy req2.image
              · rfl
              · exact absurd hb h2
            exact absurd h (by simp [POST, h1', h2', h3])
          · have h3' : falsy req2.text = false := by
              cases hb : falsy req2.text
              · rfl
              · exact absurd hb h3
            rw [POST_pass oracle h1' (Or.inr h3')] at h
            exact modelResponse_200 h

/-- Witness for C3: the round-trip success scenario. -/
theorem C3_success_trimmed_witness :
    POST (some ⟨some "hello world", some "zh-CN", none⟩) oracleOk =
      ({ status := 200, body := RespBody.textBody "Bonjour" },
       [issuedCall ⟨some "hello world", some "zh-CN", none⟩]) :=
  (C3_success_trimmed (some ⟨some "hello world", some "zh-CN", none⟩)
      ⟨some "hello world", some "zh-CN", none⟩ oracleOk " Bonjour ").1
    rfl (Or.inr rfl) rfl (by decide)

/-- C4: with `targetLang` present and a truthy `image`, the handler issues
exactly the multimodal call — even when `text` is also present (no
hypothesis on `text` below) — and that call is not the bare-string
text-only shape. -/
theorem C4_image_mode (req : TranslationRequest) (oracle : GenRequest → ModelResult)
    (h1 : falsy req.targetLang = false) (h2 : truthy req.image = true) :
    (POST (some req) oracle).2 =
      [imageCallOf (req.targetLang.getD "") (req.image.getD "")] ∧
    ∀ s, (imageCallOf (req.targetLang.getD "") (req.image.getD "")).contents ≠
      GenContents.str s := by
  constructor
  · rw [POST_pass oracle h1 (Or.inl h2)]
    simp [issuedCall, h2]
  · intro s
    simp [imageCallOf]

/-- Witness for C4: both `image` and `text` present. -/
theorem C4_image_mode_witness :
    (POST (some ⟨some "hello", some "fr", some "IMG"⟩) oracleOk).2 =
      [imageCallOf "fr" "IMG"] :=
  (C4_image_mode ⟨some "hello", some "fr", some "IMG"⟩ oracleOk rfl rfl).1

/-- C5 counterexample: on a payload containing the separator twice, the
code keeps only the segment between the first and second occurrence (the
JavaScript `split(...)[1]`), not everything that follows the first
separator as the claim states. -/
theorem C5_counterexample :
    cleanBase64 "base64,Abase64,B" = "A" ∧
    cleanBase64Claimed "base64,Abase64,B" = "Abase64,B" ∧
    cleanBase64 "base64,Abase64,B" ≠ cleanBase64Claimed "base64,Abase64,B" := by
  refine ⟨rfl, rfl, ?_⟩
  decide

/-- C5 amended: a payload without the separator passes through unchanged;
a payload containing it yields the segment strictly between the first
occurrence of the separator and the next occurrence (or the end of the
string when there is no further occurrence), and that segment itself
contains no occurrence of the separator. -/
theorem C5_normalization (s : String) :
    (afterFirst sepB64 s.data = none → cleanBase64 s = s) ∧
    (∀ rest, afterFirst sepB64 s.data = some rest →
      (∃ pre, s.data = pre ++ sepB64 ++ rest ∧ afterFirst sepB64 pre = none) ∧
      (cleanBase64 s).data = beforeFirst sepB64 rest ∧
      (afterFirst sepB64 rest = none → (cleanBase64 s).data = rest) ∧
      (∀ r2, afterFirst sepB64 rest = some r2 →
        rest = (cleanBase64 s).data ++ sepB64 ++ r2 ∧
        afterFirst sepB64 (cleanBase64 s).data = none)) := by
  constructor
  · intro h
    unfold cleanBase64
    rw [h]
  · intro rest h
    have hclean : (cleanBase64 s).data = beforeFirst sepB64 rest := by
      unfold cleanBase64
      rw [h, data_mk]
    refine ⟨afterFirst_some_decomp h, hclean, ?_, ?_⟩
    · intro hn
      rw [hclean, beforeFirst_of_none hn]
    · intro r2 h2
      refine ⟨?_, ?_⟩
      · rw [hclean]
        exact beforeFirst_append_afterFirst h2
      · rw [hclean]
        exact afterFirst_beforeFirst_none sepB64 rest

/-- Witness for C5 amended, at the standard data-URI payload. -/
theorem C5_normalization_witness :
    (∃ pre, ("data:image/png;base64,AAAA" : String).data =
        pre ++ sepB64 ++ ("AAAA" : String).data ∧ afterFirst sepB64 pre = none) ∧
    (cleanBase64 "data:image/png;base64,AAAA").data =
      beforeFirst sepB64 ("AAAA" : String).data ∧
    (afterFirst sepB64 ("AAAA" : String).data = none →
      (cleanBase64 "data:image/png;base64,AAAA").data = ("AAAA" : String).data) ∧
    (∀ r2, afterFirst sepB64 ("AAAA" : String).data = some r2 →
      ("AAAA" : String).data =
        (cleanBase64 "data:image/png;base64,AAAA").data ++ sepB64 ++ r2 ∧
      afterFirst sepB64 (cleanBase64 "data:image/png;base64,AAAA").data = none) :=
  (C5_normalization "data:image/png;base64,AAAA").2 ("AAAA" : String).data rfl

/-- C6: the base64 normalization strips the data-URI prefix from the given
example, is the identity on an already-raw payload, and is idempotent on
every string. -/
theorem C6_idempotent :
    cleanBase64 "data:image/png;base64,AAAA" = "AAAA" ∧
    cleanBase64 "AAAA" = "AAAA" ∧
    ∀ x : String, cleanBase64 (cleanBase64 x) = cleanBase64 x := by
  refine ⟨rfl, rfl, ?_⟩
  intro x
  cases h : afterFirst sepB64 x.data with
  | none =>
    have hx : cleanBase64 x = x := by
      unfold cleanBase64
      rw [h]
    rw [hx]
    exact hx
  | some rest =>
    have hx : cleanBase64 x = String.mk (beforeFirst sepB64 rest) := by
      unfold cleanBase64
      rw [h]
    rw [hx]
    unfold cleanBase64
    rw [data_mk, afterFirst_beforeFirst_none]

/-- C7: in image mode the one outbound call is a single user-role message
with exactly two parts — the rendered prompt as text and the normalized
base64 payload as inline data — with MIME type fixed to `image/jpeg`. -/
theorem C7_image_call_shape (req : TranslationRequest) (oracle : GenRequest → ModelResult)
    (h1 : falsy req.targetLang = false) (h2 : truthy req.image = true) :
    (POST (some req) oracle).2 =
      [{ model := "gemini-2.5-flash",
         contents := GenContents.msgs
           [{ role := "user",
              parts := [Part.textPart (imagePrompt (req.targetLang.getD "")),
                        Part.inlineData "image/jpeg" (cleanBase64 (req.image.getD ""))] }] }] := by
  rw [POST_pass oracle h1 (Or.inl h2)]
  simp [issuedCall, h2, imageCallOf]

/-- Witness for C7 at a concrete data-URI image request. -/
theorem C7_image_call_shape_witness :
    (POST (some ⟨some "txt", some "en", some "data:image/jpeg;base64,ZZZZ"⟩) oracleOk).2 =
      [{ model := "gemini-2.5-flash",
         contents := GenContents.msgs
           [{ role := "user",
              parts := [Part.textPart (imagePrompt "en"),
                        Part.inlineData "image/jpeg"
                          (cleanBase64 "data:image/jpeg;base64,ZZZZ")] }] }] :=
  C7_image_call_shape ⟨some "txt", some "en", some "data:image/jpeg;base64,ZZZZ"⟩
    oracleOk rfl rfl

set_option maxRecDepth 4000 in
/-- C8 counterexample: a targetLang with trailing whitespace does not appear
verbatim in the image-mode prompt, because the whole template is trimmed
and the interpolated targetLang is its last non-template content. -/
theorem C8_counterexample :
    ¬ (("F " : String).data <:+: (imagePrompt "F ").data) := by
  decide

/-- C8 amended: prompt rendering is a pure function of `(targetLang, text)`
(repeated identical invocations render byte-identical prompts); the
targetLang string appears verbatim in every text-mode prompt; in image-mode
prompts its right-trimmed form appears verbatim (trailing whitespace of the
interpolated value is removed by the final trim); and the text-mode prompt
is the literal template concatenation of targetLang and the unescaped,
unsanitized source text, trimmed as a whole. -/
theorem C8_prompt_determinism (tl txt tl2 txt2 : String) :
    (tl = tl2 → txt = txt2 →
      textPrompt tl txt = textPrompt tl2 txt2 ∧ imagePrompt tl = imagePrompt tl2) ∧
    tl.data <:+: (textPrompt tl txt).data ∧
    ((tl.data.reverse.dropWhile Char.isWhitespace).reverse <:+: (imagePrompt tl).data) ∧
    textPrompt tl txt =
      jsTrim (textPromptHead ++ tl ++ textPromptMid ++ txt ++ textPromptTail) := by
  refine ⟨?_, ?_, ?_, rfl⟩
  · intro h1 h2
    rw [h1, h2]
    exact ⟨rfl, rfl⟩
  · rw [textPrompt_data]
    exact ⟨textPromptHeadT.data, _, rfl⟩
  · rw [imagePrompt_data]
    cases hcase : (tl.data.reverse.dropWhile Char.isWhitespace).isEmpty with
    | true =>
      have hnil : tl.data.reverse.dropWhile Char.isWhitespace = [] := by
        rwa [List.isEmpty_iff] at hcase
      rw [hnil]
      simp only [List.reverse_nil, if_true]
      exact ⟨[], _, rfl⟩
    | false =>
      simp only [Bool.false_eq_true, if_false]
      exact ⟨imagePromptHeadT.data, [], by simp⟩

/-- Witness for C8 amended at a concrete language and text. -/
theorem C8_prompt_determinism_witness :
    (textPrompt "fr" "hello" = textPrompt "fr" "hello" ∧
      imagePrompt "fr" = imagePrompt "fr") ∧
    ("fr" : String).data <:+: (textPrompt "fr" "hello").data ∧
    ((("fr" : String).data.reverse.dropWhile Char.isWhitespace).reverse <:+:
      (imagePrompt "fr").data) ∧
    textPrompt "fr" "hello" =
      jsTrim (textPromptHead ++ "fr" ++ textPromptMid ++ "hello" ++ textPromptTail) :=
  ⟨(C8_prompt_determinism "fr" "hello" "fr" "hello").1 rfl rfl,
   (C8_prompt_determinism "fr" "hello" "fr" "hello").2⟩

/-- C9: an empty-string `image` is falsy, hence treated as absent: with
`targetLang` present the handler falls through to the text branch,
responding `400 Missing text` when `text` is missing or empty, and issuing
the text-only call when `text` is non-empty. -/
theorem C9_empty_image_absent (req : TranslationRequest) (oracle : GenRequest → ModelResult)
    (himg : req.image = some "") (h1 : falsy req.targetLang = false) :
    (falsy req.text = true →
      POST (some req) oracle =
        ({ status := 400, body := RespBody.errorBody "Missing text" }, [])) ∧
    (falsy req.text = false →
      (POST (some req) oracle).2 =
        [textCallOf (req.targetLang.getD "") (req.text.getD "")]) := by
  have h2 : truthy req.image = false := by
    rw [himg]
    rfl
  constructor
  · intro h3
    simp [POST, h1, h2, h3]
  · intro h3
    rw [POST_pass oracle h1 (Or.inr h3)]
    simp [issuedCall, h2]

/-- Witness for C9 at the two concrete empty-image requests. -/
theorem C9_empty_image_absent_witness :
    POST (some ⟨none, some "fr", some ""⟩) oracleOk =
      ({ status := 400, body := RespBody.errorBody "Missing text" }, []) ∧
    (POST (some ⟨some "hi", some "fr", some ""⟩) oracleOk).2 = [textCallOf "fr" "hi"] :=
  ⟨(C9_empty_image_absent ⟨none, some "fr", some ""⟩ oracleOk rfl rfl).1 rfl,
   (C9_empty_image_absent ⟨some "hi", some "fr", some ""⟩ oracleOk rfl rfl).2 rfl⟩

/-- C10: whitespace-only text passes validation: the handler does not
respond 400 but issues the text-mode call; and because the whole rendered
prompt is trimmed, the text's trailing whitespace is absent — the prompt
equals the prompt rendered for the empty text, and is fixed under right
trimming. -/
theorem C10_whitespace_text (req : TranslationRequest) (oracle : GenRequest → ModelResult)
    (t : String) (h1 : falsy req.targetLang = false) (h2 : truthy req.image = false)
    (ht : req.text = some t) (htne : t ≠ "")
    (hws : ∀ c ∈ t.data, Char.isWhitespace c) :
    (POST (some req) oracle).1.status ≠ 400 ∧
    (POST (some req) oracle).2 = [textCallOf (req.targetLang.getD "") t] ∧
    textPrompt (req.targetLang.getD "") t = textPrompt (req.targetLang.getD "") "" ∧
    List.rdropWhile Char.isWhitespace (textPrompt (req.targetLang.getD "") t).data =
      (textPrompt (req.targetLang.getD "") t).data := by
  have h3 : falsy req.text = false := by
    rw [ht]
    show t.isEmpty = false
    cases hemp : t.isEmpty
    · rfl
    · exact absurd ((String.isEmpty_iff t).mp hemp) htne
  have hpost := POST_pass oracle h1 (Or.inr h3)
  refine ⟨?_, ?_, ?_, ?_⟩
  · rw [hpost]
    rcases modelResponse_status (oracle (issuedCall req)) with h | h <;> simp [h]
  · rw [hpost]
    simp [issuedCall, h2, ht]
  · apply string_eq_of_data
    rw [textPrompt_data, textPrompt_data]
    have hnilt : t.data.reverse.dropWhile Char.isWhitespace = [] := by
      rw [List.dropWhile_eq_nil_iff]
      intro x hx
      exact hws x (List.mem_reverse.mp hx)
    rw [hnilt]
    rfl
  · conv_lhs => rw [textPrompt, jsTrim, data_mk, trimList]
    rw [List.rdropWhile_idempotent]
    rfl

/-- Witness for C10 at the single-space text. -/
theorem C10_whitespace_text_witness :
    (POST (some ⟨some " ", some "fr", none⟩) oracleOk).1.status ≠ 400 ∧
    (POST (some ⟨some " ", some "fr", none⟩) oracleOk).2 = [textCallOf "fr" " "] ∧
    textPrompt "fr" " " = textPrompt "fr" "" ∧
    List.rdropWhile Char.isWhitespace (textPrompt "fr" " ").data =
      (textPrompt "fr" " ").data :=
  C10_whitespace_text ⟨some " ", some "fr", none⟩ oracleOk " " rfl rfl rfl
    (by decide) (by decide)

end TranslateApi
